import Mathlib

/-!
# gocore: the record walk of `processorInfo` and `PrintMask`

A shallow embedding of `src/main.go`.

* The target is a 64-bit little-endian Windows host: `uintptr` is 64 bits wide, `int` is
  64 bits wide, and the Go structs have the layout the Go compiler gives them there
  (`unsafe.Offsetof` / `unsafe.Sizeof` values are written out as constants below).
* `buffer` is a byte slice, but the walk reads it through `unsafe.Pointer` casts, which are
  not bounds checked.  The buffer is therefore modelled as its length together with the
  memory starting at `&buffer[0]`: the first `len` bytes are the slice, the bytes after it
  are whatever memory holds there.
* Console output is not part of the state, with one exception: the bit positions that
  `PrintMask` prints are returned next to its result.
* The counters are Go `int`s.  Every iteration adds at most 64 to a counter, so a wrap
  at `2^63` is out of reach of any run that ends; they are modelled as natural numbers.
-/

namespace Gocore

/-! ## Relationship kinds (`RelationType`, lines 14-26) -/

def RelationProcessorCore : Nat := 0
def RelationNumaNode : Nat := 1
def RelationCache : Nat := 2
def RelationProcessorPackage : Nat := 3
def RelationGroup : Nat := 4
def RelationProcessorDie : Nat := 5
def RelationNumaNodeEx : Nat := 6
def RelationProcessorModule : Nat := 7
def RelationAll : Nat := 0xffff

/-! ## Memory -/

/-- The byte slice `buffer`: its length and the memory that starts at `&buffer[0]`. -/
structure Buffer where
  len : Nat
  mem : Nat → Nat

/-- A buffer holding exactly the given bytes, followed by zero bytes. -/
def Buffer.ofBytes (bytes : List Nat) : Buffer :=
  { len := bytes.length, mem := fun a => bytes.getD a 0 }

def readByte (b : Buffer) (a : Nat) : Nat := b.mem a % 256

def readUint16 (b : Buffer) (a : Nat) : Nat :=
  readByte b a + 256 * readByte b (a + 1)

def readUint32 (b : Buffer) (a : Nat) : Nat :=
  readUint16 b a + 65536 * readUint16 b (a + 2)

def readUintptr (b : Buffer) (a : Nat) : Nat :=
  readUint32 b a + 4294967296 * readUint32 b (a + 4)

/-! ## The Go structs (lines 28-88), with the fields the walk reads -/

structure GROUP_AFFINITY where
  Mask : Nat
  Group : Nat
  deriving DecidableEq

structure PROCESSOR_GROUP_INFO where
  MaximumProcessorCount : Nat
  ActiveProcessorCount : Nat
  ActiveProcessorMask : Nat
  deriving DecidableEq

/-- The `data` of a record as the walk casts it: `PROCESSOR_RELATIONSHIP`,
`NUMA_NODE_RELATIONSHIP`, `CACHE_RELATIONSHIP`, `GROUP_RELATIONSHIP`, or nothing when no
`case` of the `switch` matches.  The trailing arrays are the slices `groupMasks` and
`groupInfo` that the walk copies out of the record. -/
inductive Payload where
  | processor (GroupCount : Nat) (groupMasks : List GROUP_AFFINITY)
  | numaNode (NodeNumber : Nat) (GroupCount : Nat) (groupMasks : List GROUP_AFFINITY)
  | cache (Level : Nat)
  | group (MaximumGroupCount : Nat) (ActiveGroupCount : Nat)
      (groupInfo : List PROCESSOR_GROUP_INFO)
  | none
  deriving DecidableEq

/-- `SYSTEM_LOGICAL_PROCESSOR_INFORMATION_EX` as read at one offset. -/
structure Record where
  Relationship : Nat
  Size : Nat
  data : Payload
  deriving DecidableEq

/-- `*(*GROUP_AFFINITY)(p)`: `Mask` at offset 0, `Group` at offset 8. -/
def readGroupAffinity (b : Buffer) (p : Nat) : GROUP_AFFINITY :=
  { Mask := readUintptr b p, Group := readUint16 b (p + 8) }

/-- `*(*PROCESSOR_GROUP_INFO)(p)`: the two counts at offsets 0 and 1, the mask at 40. -/
def readGroupInfo (b : Buffer) (p : Nat) : PROCESSOR_GROUP_INFO :=
  { MaximumProcessorCount := readByte b p
    ActiveProcessorCount := readByte b (p + 1)
    ActiveProcessorMask := readUintptr b (p + 40) }

/-- Lines 198-201 and 225-228: `groupMasks[i]` is read at
`&GroupMasks + i * unsafe.Sizeof(GROUP_AFFINITY{})`, for `i < GroupCount`. -/
def copyGroupMasks (b : Buffer) (base count : Nat) : List GROUP_AFFINITY :=
  (List.range count).map fun i => readGroupAffinity b (base + i * 16)

/-- Lines 248-252: `groupInfo[i]` is read at
`&GroupInfo + i * unsafe.Sizeof(PROCESSOR_GROUP_INFO{})`, for `i < ActiveGroupCount`. -/
def copyGroupInfo (b : Buffer) (base count : Nat) : List PROCESSOR_GROUP_INFO :=
  (List.range count).map fun i => readGroupInfo b (base + i * 48)

/-- Lines 193-196, 222, 238, 244: the record at `&buffer[offset]`, cast by the `case` of
the `switch` that its `Relationship` selects.  `info.data` is at offset 8 of the record;
the count fields are at offset 22 (`GroupCount`) and 2 (`ActiveGroupCount`) of the payload
and the trailing arrays at offset 24. -/
def recordAt (b : Buffer) (offset : Nat) : Record :=
  let Relationship := readUint32 b offset
  let Size := readUint32 b (offset + 4)
  let data := offset + 8
  { Relationship := Relationship
    Size := Size
    data :=
      if Relationship = RelationProcessorCore ∨ Relationship = RelationProcessorPackage ∨
          Relationship = RelationProcessorDie ∨ Relationship = RelationProcessorModule then
        Payload.processor (readUint16 b (data + 22))
          (copyGroupMasks b (data + 24) (readUint16 b (data + 22)))
      else if Relationship = RelationNumaNode ∨ Relationship = RelationNumaNodeEx then
        Payload.numaNode (readUint32 b data) (readUint16 b (data + 22))
          (copyGroupMasks b (data + 24) (readUint16 b (data + 22)))
      else if Relationship = RelationCache then
        Payload.cache (readByte b data)
      else if Relationship = RelationGroup then
        Payload.group (readUint16 b data) (readUint16 b (data + 2))
          (copyGroupInfo b (data + 24) (readUint16 b (data + 2)))
      else Payload.none }

/-! ## `PrintMask` (lines 149-158) -/

/-- What a call of `PrintMask` does: the positions it prints, in the order printed, and
the `count` it returns. -/
structure Printed where
  positions : List Nat
  count : Nat
  deriving DecidableEq

/-- The `for i := 0; i < 64; i++` loop, with `n` iterations left to run from `i`. -/
def PrintMask.loop (mask : Nat) : Nat → Nat → Printed → Printed
  | 0, _, acc => acc
  | n + 1, i, acc =>
    if mask &&& ((1 <<< i) % 2 ^ 64) ≠ 0 then
      PrintMask.loop mask n (i + 1)
        { positions := acc.positions ++ [i], count := acc.count + 1 }
    else
      PrintMask.loop mask n (i + 1) acc

def PrintMask (mask : Nat) : Printed :=
  PrintMask.loop mask 64 0 { positions := [], count := 0 }

/-! ## The walk of `processorInfo` (lines 187-272) -/

/-- The four counters declared at lines 187-190. -/
structure Counters where
  numOfGroups : Nat
  numofSockets : Nat
  numOfcores : Nat
  numOfLogicalProcessors : Nat
  deriving DecidableEq

/-- The loop variable `offset` and the counters. -/
structure State where
  offset : Nat
  counters : Counters
  deriving DecidableEq

/-- Lines 187-190 and the loop initialiser `offset := 0`. -/
def State.init : State :=
  { offset := 0
    counters :=
      { numOfGroups := 0, numofSockets := 0, numOfcores := 0, numOfLogicalProcessors := 0 } }

/-- Lines 204-210: `processorCount` starts at 0 and every affinity assigns to it the
result of `PrintMask` on its mask. -/
def processorCount (groupMasks : List GROUP_AFFINITY) : Nat :=
  groupMasks.foldl (fun _ g => (PrintMask g.Mask).count) 0

/-- The effect of the `switch` (lines 194-264) on the counters. -/
def aggregate (c : Counters) (info : Record) : Counters :=
  match info.data with
  | Payload.processor _ groupMasks =>
    let c1 :=
      if RelationProcessorCore = info.Relationship then
        { c with numOfcores := c.numOfcores + 1 }
      else c
    if RelationProcessorPackage = info.Relationship then
      { c1 with
        numofSockets := c1.numofSockets + 1
        numOfLogicalProcessors := c1.numOfLogicalProcessors + processorCount groupMasks }
    else c1
  | Payload.numaNode _ _ _ => c
  | Payload.cache _ => c
  | Payload.group _ ActiveGroupCount _ => { c with numOfGroups := ActiveGroupCount }
  | Payload.none => c

/-- One iteration of the loop at line 192: the `switch`, then `offset += int(info.Size)`. -/
def loopBody (b : Buffer) (s : State) : State :=
  let info := recordAt b s.offset
  { offset := s.offset + info.Size, counters := aggregate s.counters info }

/-- The loop `for offset := 0; offset < len(buffer); { ... }` run for at most `fuel`
iterations: `some` of the state in which the loop condition fails, `none` when the loop
is still running after `fuel` iterations. -/
def walk (b : Buffer) : Nat → State → Option State
  | 0, s => if s.offset < b.len then none else some s
  | fuel + 1, s => if s.offset < b.len then walk b fuel (loopBody b s) else some s

/-- The offsets of the records that the first `fuel` iterations of the loop visit. -/
def visited (b : Buffer) : Nat → State → List Nat
  | 0, _ => []
  | fuel + 1, s =>
    if s.offset < b.len then s.offset :: visited b fuel (loopBody b s) else []

/-- The records that the first `fuel` iterations of the loop visit. -/
def records (b : Buffer) (fuel : Nat) (s : State) : List Record :=
  (visited b fuel s).map (recordAt b)

/-- The walk of `processorInfo` on `buffer`, started as at lines 187-192: the counters
that lines 269-272 print when the loop ends within `fuel` iterations. -/
def processorInfo (b : Buffer) (fuel : Nat) : Option Counters :=
  (walk b fuel State.init).map State.counters

/-! ## Reading a decoded record -/

/-- The `ActiveGroupCount` field of a `GROUP_RELATIONSHIP` payload. -/
def Payload.activeGroupCount : Payload → Nat
  | Payload.group _ ActiveGroupCount _ => ActiveGroupCount
  | _ => 0

/-- The `GroupCount` field of a `PROCESSOR_RELATIONSHIP` or `NUMA_NODE_RELATIONSHIP`
payload. -/
def Payload.groupCount : Payload → Nat
  | Payload.processor GroupCount _ => GroupCount
  | Payload.numaNode _ GroupCount _ => GroupCount
  | _ => 0

/-- The masks of the `GroupMasks` array of a `PROCESSOR_RELATIONSHIP` payload, in array
order. -/
def Payload.masks : Payload → List Nat
  | Payload.processor _ groupMasks => groupMasks.map GROUP_AFFINITY.Mask
  | _ => []

/-- Whether the payload was cast to `GROUP_RELATIONSHIP`. -/
def Payload.isGroup : Payload → Bool
  | Payload.group _ _ _ => true
  | _ => false

/-- The counters as lines 187-190 initialise them. -/
def zeroCounters : Counters := State.init.counters

/-! ## Bit sets -/

/-- The number of set bits among the low `w` bits of `m`. -/
def popcountW : Nat → Nat → Nat
  | 0, _ => 0
  | w + 1, m => m % 2 + popcountW w (m / 2)

/-- The number of set bits of a 64-bit mask. -/
def popcount (mask : Nat) : Nat := popcountW 64 mask

/-- The mask that has exactly the bits at the given positions set: the OR of `1 << p`. -/
def orBits (positions : List Nat) : Nat :=
  positions.foldl (fun m p => m ||| 1 <<< p) 0

/-! ## Sample buffers -/

/-- Little-endian bytes of a 16-bit value. -/
def le16 (v : Nat) : List Nat := [v % 256, v / 256 % 256]

/-- Little-endian bytes of a 32-bit value. -/
def le32 (v : Nat) : List Nat := le16 (v % 65536) ++ le16 (v / 65536)

/-- Little-endian bytes of a 64-bit value. -/
def le64 (v : Nat) : List Nat := le32 (v % 4294967296) ++ le32 (v / 4294967296)

/-- The bytes of one `GROUP_AFFINITY`: mask, group, three reserved words. -/
def affinityBytes (a : Nat × Nat) : List Nat :=
  le64 a.1 ++ le16 a.2 ++ List.replicate 6 0

/-- The bytes of a record whose payload ends in a `GroupCount` at offset 22 and a
`GroupMasks` array at offset 24 (`PROCESSOR_RELATIONSHIP`, `NUMA_NODE_RELATIONSHIP`):
the kind, the declared `Size`, and the affinities as (mask, group) pairs.  With one
affinity the record is 48 bytes long, with two 64. -/
def affinityRecordBytes (kind size : Nat) (affinities : List (Nat × Nat)) : List Nat :=
  le32 kind ++ le32 size ++ List.replicate 22 0 ++
    le16 affinities.length ++ affinities.flatMap affinityBytes

/-- The bytes of a `RelationGroup` record with one `PROCESSOR_GROUP_INFO` (80 bytes). -/
def groupBytes (maxGroups activeGroups maxProcs activeProcs mask : Nat) : List Nat :=
  le32 4 ++ le32 80 ++ le16 maxGroups ++ le16 activeGroups ++ List.replicate 20 0 ++
    [maxProcs, activeProcs] ++ List.replicate 38 0 ++ le64 mask

/-- Two package records with one affinity each: mask `0x0F` in group 0, mask `0xF0` in
group 1. -/
def twoPackages : Buffer :=
  Buffer.ofBytes (affinityRecordBytes 3 48 [(0x0F, 0)] ++ affinityRecordBytes 3 48 [(0xF0, 1)])

/-- One package record that spans two processor groups: affinities `0x0F` in group 0 and
`0xF0` in group 1. -/
def packageTwoGroups : Buffer :=
  Buffer.ofBytes (affinityRecordBytes 3 64 [(0x0F, 0), (0xF0, 1)])

/-- One core record with mask `0x03`. -/
def oneCore : Buffer :=
  Buffer.ofBytes (affinityRecordBytes 0 48 [(0x03, 0)])

/-- One group record: `ActiveGroupCount = 1`, one group of 8 processors, mask `0xFF`. -/
def oneGroup : Buffer :=
  Buffer.ofBytes (groupBytes 1 1 8 8 0xFF)

/-- A core record followed by two group records with `ActiveGroupCount` 2 and 1. -/
def coreThenTwoGroups : Buffer :=
  Buffer.ofBytes (affinityRecordBytes 0 48 [(0x03, 0)] ++ groupBytes 2 2 8 8 0xFF ++
    groupBytes 1 1 8 8 0xFF)

/-- One NUMA node record with one affinity, mask `0xFF`. -/
def oneNumaNode : Buffer :=
  Buffer.ofBytes (affinityRecordBytes 1 48 [(0xFF, 0)])

/-- A 48-byte buffer holding one package record that declares `Size = 49`. -/
def overshoot : Buffer :=
  Buffer.ofBytes (affinityRecordBytes 3 49 [(0x0F, 0)])

/-- A package record that declares `Size = 0`. -/
def zeroSize : Buffer :=
  Buffer.ofBytes (affinityRecordBytes 3 0 [(0x0F, 0)])

/-- Package `0x0F`, core `0x03`, package `0xF0`. -/
def orderA : Buffer :=
  Buffer.ofBytes (affinityRecordBytes 3 48 [(0x0F, 0)] ++ affinityRecordBytes 0 48 [(0x03, 0)] ++
    affinityRecordBytes 3 48 [(0xF0, 1)])

/-- Core `0x03`, package `0x0F`, package `0xF0`: the records of `orderA` with the core
record moved to the front. -/
def orderB : Buffer :=
  Buffer.ofBytes (affinityRecordBytes 0 48 [(0x03, 0)] ++ affinityRecordBytes 3 48 [(0x0F, 0)] ++
    affinityRecordBytes 3 48 [(0xF0, 1)])

/-! ## Lemmas -/

/-! ### `PrintMask` -/

theorem and_two_pow_ne_zero_iff (mask i : Nat) :
    mask &&& 2 ^ i ≠ 0 ↔ mask.testBit i = true := by
  constructor
  · intro h
    by_contra hb
    apply h
    apply Nat.eq_of_testBit_eq
    intro j
    rw [Nat.testBit_and, Nat.testBit_two_pow, Nat.zero_testBit]
    by_cases hij : i = j
    · subst hij; simp [hb]
    · simp [hij]
  · intro hb h0
    have h1 : (mask &&& 2 ^ i).testBit i = true := by
      rw [Nat.testBit_and, Nat.testBit_two_pow_self, hb]; rfl
    rw [h0, Nat.zero_testBit] at h1
    exact Bool.noConfusion h1

theorem bit_test_iff (mask i : Nat) (hi : i < 64) :
    mask &&& ((1 <<< i) % 2 ^ 64) ≠ 0 ↔ mask.testBit i = true := by
  have hlt : 2 ^ i < 2 ^ 64 := Nat.pow_lt_pow_right (by decide) hi
  rw [Nat.one_shiftLeft, Nat.mod_eq_of_lt hlt]
  exact and_two_pow_ne_zero_iff mask i

theorem PrintMask_loop_eq (mask : Nat) :
    ∀ (n i : Nat) (acc : Printed), i + n ≤ 64 →
      PrintMask.loop mask n i acc =
        { positions := acc.positions ++ (List.range' i n).filter (fun p => mask.testBit p)
          count := acc.count + ((List.range' i n).filter (fun p => mask.testBit p)).length } := by
  intro n
  induction n with
  | zero => intro i acc _; simp [PrintMask.loop]
  | succ n ih =>
    intro i acc h
    have hi : i < 64 := by omega
    rw [PrintMask.loop]
    by_cases hb : mask.testBit i = true
    · rw [if_pos ((bit_test_iff mask i hi).mpr hb), ih (i + 1) _ (by omega)]
      simp [List.range'_succ, List.filter_cons, hb]
      omega
    · rw [if_neg (fun hc => hb ((bit_test_iff mask i hi).mp hc)), ih (i + 1) _ (by omega)]
      simp [List.range'_succ, List.filter_cons, hb]

theorem PrintMask_eq (mask : Nat) :
    PrintMask mask =
      { positions := (List.range 64).filter (fun p => mask.testBit p)
        count := ((List.range 64).filter (fun p => mask.testBit p)).length } := by
  rw [PrintMask, PrintMask_loop_eq mask 64 0 _ (by decide), List.range_eq_range']
  simp

theorem filter_testBit_length (w : Nat) :
    ∀ m : Nat, ((List.range w).filter (fun p => m.testBit p)).length = popcountW w m := by
  induction w with
  | zero => intro m; simp [popcountW]
  | succ w ih =>
    intro m
    rw [List.range_succ_eq_map, List.filter_cons, popcountW, ← ih (m / 2), List.filter_map]
    have hf : ((fun p => m.testBit p) ∘ Nat.succ) = fun p => (m / 2).testBit p := by
      funext p; simp [Function.comp, Nat.testBit_succ]
    rw [hf]
    rcases Nat.mod_two_eq_zero_or_one m with h | h <;> simp [Nat.testBit_zero, h, Nat.add_comm]

theorem testBit_foldl_or (ps : List Nat) :
    ∀ (init j : Nat),
      (ps.foldl (fun m p => m ||| 1 <<< p) init).testBit j =
        (init.testBit j || decide (j ∈ ps)) := by
  induction ps with
  | nil => intro init j; simp
  | cons p ps ih =>
    intro init j
    rw [List.foldl_cons, ih, Nat.testBit_or, Nat.one_shiftLeft, Nat.testBit_two_pow]
    by_cases hpj : p = j
    · subst hpj; simp
    · have hjp : ¬ j = p := fun h => hpj h.symm
      simp [hpj, hjp]

theorem testBit_eq_false_of_lt {mask : Nat} (h : mask < 2 ^ 64) {j : Nat} (hj : 64 ≤ j) :
    mask.testBit j = false :=
  Nat.testBit_lt_two_pow (lt_of_lt_of_le h (Nat.pow_le_pow_right (by decide) hj))

theorem mem_positions (mask p : Nat) :
    p ∈ (PrintMask mask).positions ↔ p < 64 ∧ mask.testBit p = true := by
  rw [PrintMask_eq]; simp

/-! ### Reads are in range -/

theorem readByte_lt (b : Buffer) (a : Nat) : readByte b a < 256 :=
  Nat.mod_lt _ (by decide)

theorem readUint16_lt (b : Buffer) (a : Nat) : readUint16 b a < 65536 := by
  have h0 := readByte_lt b a
  have h1 := readByte_lt b (a + 1)
  unfold readUint16; omega

theorem readUint32_lt (b : Buffer) (a : Nat) : readUint32 b a < 4294967296 := by
  have h0 := readUint16_lt b a
  have h1 := readUint16_lt b (a + 2)
  unfold readUint32; omega

theorem readUintptr_lt (b : Buffer) (a : Nat) : readUintptr b a < 2 ^ 64 := by
  have h0 := readUint32_lt b a
  have h1 := readUint32_lt b (a + 4)
  unfold readUintptr
  norm_num
  omega

theorem mask_lt_of_mem_copyGroupMasks {b : Buffer} {base count : Nat} {g : GROUP_AFFINITY}
    (hg : g ∈ copyGroupMasks b base count) : g.Mask < 2 ^ 64 := by
  unfold copyGroupMasks at hg
  rcases List.mem_map.mp hg with ⟨i, _, rfl⟩
  exact readUintptr_lt b _

/-! ### The per-record `processorCount` -/

theorem foldl_overwrite {α : Type} (f : α → Nat) :
    ∀ (l : List α) (init : Nat),
      l.foldl (fun _ g => f g) init = (l.getLast?.map f).getD init := by
  intro l
  induction l with
  | nil => intro init; rfl
  | cons x xs ih =>
    intro init
    rw [List.foldl_cons, ih]
    cases xs with
    | nil => rfl
    | cons y ys =>
      rw [List.getLast?_cons_cons]
      cases h : (y :: ys).getLast? with
      | none => simp at h
      | some g => rfl

theorem processorCount_eq (groupMasks : List GROUP_AFFINITY) :
    processorCount groupMasks =
      (groupMasks.getLast?.map fun g => (PrintMask g.Mask).count).getD 0 :=
  foldl_overwrite (fun g : GROUP_AFFINITY => (PrintMask g.Mask).count) groupMasks 0

/-! ### The record at an offset -/

theorem recordAt_Relationship (b : Buffer) (o : Nat) :
    (recordAt b o).Relationship = readUint32 b o := rfl

theorem recordAt_Size (b : Buffer) (o : Nat) :
    (recordAt b o).Size = readUint32 b (o + 4) := rfl

theorem recordAt_processor {b : Buffer} {o : Nat}
    (h : (recordAt b o).Relationship = RelationProcessorCore ∨
      (recordAt b o).Relationship = RelationProcessorPackage ∨
      (recordAt b o).Relationship = RelationProcessorDie ∨
      (recordAt b o).Relationship = RelationProcessorModule) :
    (recordAt b o).data =
      Payload.processor (readUint16 b (o + 8 + 22))
        (copyGroupMasks b (o + 8 + 24) (readUint16 b (o + 8 + 22))) := by
  rw [recordAt_Relationship] at h
  simp only [recordAt]
  rw [if_pos h]

theorem recordAt_group_iff (b : Buffer) (o : Nat) :
    (∃ mx act info, (recordAt b o).data = Payload.group mx act info) ↔
      (recordAt b o).Relationship = RelationGroup := by
  simp only [recordAt, RelationProcessorCore, RelationProcessorPackage, RelationProcessorDie,
    RelationProcessorModule, RelationNumaNode, RelationNumaNodeEx, RelationCache,
    RelationGroup]
  constructor
  · rintro ⟨mx, act, info, h⟩
    split_ifs at h with h1 h2 h3 h4
    exact h4
  · intro h
    rw [h]
    simp

/-! ### One iteration -/

theorem loopBody_offset (b : Buffer) (s : State) :
    (loopBody b s).offset = s.offset + (recordAt b s.offset).Size := rfl

theorem loopBody_counters (b : Buffer) (s : State) :
    (loopBody b s).counters = aggregate s.counters (recordAt b s.offset) := rfl

theorem PrintMask_count_eq_popcount (mask : Nat) : (PrintMask mask).count = popcount mask := by
  rw [PrintMask_eq]
  exact filter_testBit_length 64 mask

theorem aggregate_noCase {b : Buffer} {o : Nat} (c : Counters)
    (h : (recordAt b o).Relationship = RelationNumaNode ∨
      (recordAt b o).Relationship = RelationNumaNodeEx ∨
      (recordAt b o).Relationship = RelationCache ∨
      (recordAt b o).Relationship = RelationProcessorDie ∨
      (recordAt b o).Relationship = RelationProcessorModule ∨
      8 ≤ (recordAt b o).Relationship) :
    aggregate c (recordAt b o) = c := by
  rw [recordAt_Relationship] at h
  unfold aggregate
  simp only [recordAt, RelationProcessorCore, RelationProcessorPackage, RelationProcessorDie,
    RelationProcessorModule, RelationNumaNode, RelationNumaNodeEx, RelationCache,
    RelationGroup] at h ⊢
  split_ifs <;> first | rfl | omega

theorem group_step (b : Buffer) (s : State)
    (h : (recordAt b s.offset).Relationship = RelationGroup) :
    (loopBody b s).counters =
      { s.counters with numOfGroups := (recordAt b s.offset).data.activeGroupCount } := by
  rw [loopBody_counters]
  rcases (recordAt_group_iff b s.offset).mpr h with ⟨mx, act, info, hd⟩
  rw [aggregate, hd]
  rfl

/-! ### The walk -/

theorem visited_lt (b : Buffer) :
    ∀ (fuel : Nat) (s : State), ∀ o ∈ visited b fuel s, o < b.len := by
  intro fuel
  induction fuel with
  | zero => intro s o ho; simp [visited] at ho
  | succ n ih =>
    intro s o ho
    rw [visited] at ho
    split_ifs at ho with hlt
    · rcases List.mem_cons.mp ho with rfl | ho
      · exact hlt
      · exact ih _ o ho
    · simp at ho

theorem visited_ge (b : Buffer) :
    ∀ (fuel : Nat) (s : State), ∀ o ∈ visited b fuel s, s.offset ≤ o := by
  intro fuel
  induction fuel with
  | zero => intro s o ho; simp [visited] at ho
  | succ n ih =>
    intro s o ho
    rw [visited] at ho
    split_ifs at ho with hlt
    · rcases List.mem_cons.mp ho with rfl | ho
      · exact Nat.le_refl _
      · have := ih _ o ho
        rw [loopBody_offset] at this
        omega
    · simp at ho

theorem visited_length_le (b : Buffer) :
    ∀ (fuel : Nat) (s : State), (visited b fuel s).length ≤ fuel := by
  intro fuel
  induction fuel with
  | zero => intro s; simp [visited]
  | succ n ih =>
    intro s
    rw [visited]
    split_ifs
    · simpa using ih (loopBody b s)
    · simp

/-- When the loop ends, its state is the fold of `aggregate` over the records visited,
and `offset` is the start offset plus the sum of their sizes. -/
theorem walk_eq_foldl (b : Buffer) :
    ∀ (fuel : Nat) (s s' : State), walk b fuel s = some s' →
      s'.counters = (records b fuel s).foldl aggregate s.counters ∧
      s'.offset = s.offset + ((records b fuel s).map Record.Size).sum ∧
      b.len ≤ s'.offset := by
  intro fuel
  induction fuel with
  | zero =>
    intro s s' h
    rw [walk] at h
    split_ifs at h with hlt
    cases h
    simp [records, visited]
    omega
  | succ n ih =>
    intro s s' h
    rw [walk] at h
    split_ifs at h with hlt
    · obtain ⟨h1, h2, h3⟩ := ih _ _ h
      refine ⟨?_, ?_, h3⟩
      · rw [h1]; simp [records, visited, hlt, loopBody_counters]
      · rw [h2]; simp [records, visited, hlt, loopBody_offset]; omega
    · cases h
      simp [records, visited, hlt]
      omega

theorem walk_mono (b : Buffer) :
    ∀ (fuel k : Nat) (s s' : State), walk b fuel s = some s' → walk b (fuel + k) s = some s' := by
  intro fuel
  induction fuel with
  | zero =>
    intro k s s' h
    rw [walk] at h
    split_ifs at h with hlt
    cases k with
    | zero => simp [walk, hlt, h]
    | succ k => simp [walk, hlt, h]
  | succ n ih =>
    intro k s s' h
    rw [walk] at h
    rw [show n + 1 + k = (n + k) + 1 by omega, walk]
    split_ifs at h ⊢ with hlt
    · exact ih k _ _ h
    · exact h

theorem visited_mono (b : Buffer) :
    ∀ (fuel k : Nat) (s s' : State), walk b fuel s = some s' →
      visited b (fuel + k) s = visited b fuel s := by
  intro fuel
  induction fuel with
  | zero =>
    intro k s s' h
    rw [walk] at h
    split_ifs at h with hlt
    cases k with
    | zero => rfl
    | succ k => simp [visited, hlt]
  | succ n ih =>
    intro k s s' h
    rw [walk] at h
    rw [show n + 1 + k = (n + k) + 1 by omega, visited, visited]
    split_ifs at h ⊢ with hlt
    · rw [ih k _ _ h]
    · rfl

/-- With every visited record declaring `Size ≥ 1`, `fuel ≥ len - offset` is enough. -/
theorem walk_terminates (b : Buffer) :
    ∀ (fuel : Nat) (s : State), b.len ≤ s.offset + fuel →
      (∀ o ∈ visited b fuel s, 1 ≤ (recordAt b o).Size) →
      (∃ s', walk b fuel s = some s') ∧ List.Pairwise (· < ·) (visited b fuel s) := by
  intro fuel
  induction fuel with
  | zero =>
    intro s hle _
    have : ¬ s.offset < b.len := by omega
    simp [walk, visited, this]
  | succ n ih =>
    intro s hle hsz
    rw [walk, visited]
    by_cases hlt : s.offset < b.len
    · rw [if_pos hlt, if_pos hlt]
      have hs : 1 ≤ (recordAt b s.offset).Size := by
        apply hsz; rw [visited, if_pos hlt]; exact List.mem_cons_self _ _
      have hoff := loopBody_offset b s
      obtain ⟨hex, hpw⟩ := ih (loopBody b s) (by omega) (by
        intro o ho; apply hsz; rw [visited, if_pos hlt]; exact List.mem_cons_of_mem _ ho)
      refine ⟨hex, List.pairwise_cons.mpr ⟨?_, hpw⟩⟩
      intro o ho
      have := visited_ge b n _ o ho
      omega
    · rw [if_neg hlt, if_neg hlt]
      exact ⟨⟨s, rfl⟩, List.Pairwise.nil⟩

/-- A record with `Size = 0` at the current offset: the loop never ends. -/
theorem walk_stuck (b : Buffer) (s : State) (hlt : s.offset < b.len)
    (h0 : (recordAt b s.offset).Size = 0) :
    ∀ (fuel : Nat) (c : Counters), walk b fuel { offset := s.offset, counters := c } = none := by
  intro fuel
  induction fuel with
  | zero => intro c; simp [walk, hlt]
  | succ n ih =>
    intro c
    rw [walk, if_pos hlt]
    have : loopBody b { offset := s.offset, counters := c } =
        { offset := s.offset, counters := aggregate c (recordAt b s.offset) } := by
      simp [loopBody, h0]
    rw [this]
    exact ih _

/-! ### Folding `aggregate` over a record sequence -/

theorem getLast?_cons_getD {α : Type} (f : α → Nat) (x : α) (xs : List α) (d : Nat) :
    (((x :: xs).getLast?).map f).getD d = ((xs.getLast?).map f).getD (f x) := by
  cases xs with
  | nil => rfl
  | cons y ys =>
    rw [List.getLast?_cons_cons]
    cases h : (y :: ys).getLast? with
    | none => simp at h
    | some g => rfl

theorem aggregate_numOfGroups (c : Counters) (r : Record) :
    (aggregate c r).numOfGroups =
      if r.data.isGroup then r.data.activeGroupCount else c.numOfGroups := by
  unfold aggregate
  cases hd : r.data <;> simp [Payload.isGroup, Payload.activeGroupCount]
  split_ifs <;> rfl

theorem foldl_numOfGroups (l : List Record) :
    ∀ c : Counters,
      (l.foldl aggregate c).numOfGroups =
        (((l.filter fun r => r.data.isGroup).getLast?).map
          fun r => r.data.activeGroupCount).getD c.numOfGroups := by
  induction l with
  | nil => intro c; rfl
  | cons r rs ih =>
    intro c
    rw [List.foldl_cons, ih, aggregate_numOfGroups, List.filter_cons]
    by_cases hg : r.data.isGroup = true
    · rw [if_pos hg, if_pos hg, getLast?_cons_getD]
    · rw [if_neg hg, if_neg hg]

theorem foldl_additive (f : Counters → Nat) (d : Record → Nat)
    (h : ∀ c r, f (aggregate c r) = f c + d r) (l : List Record) :
    ∀ c : Counters, f (l.foldl aggregate c) = f c + (l.map d).sum := by
  induction l with
  | nil => intro c; simp
  | cons r rs ih =>
    intro c
    rw [List.foldl_cons, ih, h, List.map_cons, List.sum_cons, Nat.add_assoc]

theorem aggregate_numofSockets (c : Counters) (r : Record) :
    (aggregate c r).numofSockets = c.numofSockets + (aggregate zeroCounters r).numofSockets := by
  unfold aggregate
  cases hd : r.data <;> simp [zeroCounters, State.init]
  split_ifs <;> simp

theorem aggregate_numOfcores (c : Counters) (r : Record) :
    (aggregate c r).numOfcores = c.numOfcores + (aggregate zeroCounters r).numOfcores := by
  unfold aggregate
  cases hd : r.data <;> simp [zeroCounters, State.init]
  split_ifs <;> simp

theorem aggregate_numOfLogicalProcessors (c : Counters) (r : Record) :
    (aggregate c r).numOfLogicalProcessors =
      c.numOfLogicalProcessors + (aggregate zeroCounters r).numOfLogicalProcessors := by
  unfold aggregate
  cases hd : r.data <;> simp [zeroCounters, State.init]
  split_ifs <;> simp

theorem foldl_perm_additive (f : Counters → Nat) (d : Record → Nat)
    (h : ∀ c r, f (aggregate c r) = f c + d r) {l₁ l₂ : List Record} (hp : l₁.Perm l₂)
    (c : Counters) : f (l₁.foldl aggregate c) = f (l₂.foldl aggregate c) := by
  rw [foldl_additive f d h, foldl_additive f d h, (hp.map d).sum_eq]

theorem records_isGroup (b : Buffer) (o : Nat) :
    (recordAt b o).data.isGroup = decide ((recordAt b o).Relationship = RelationGroup) := by
  by_cases h : (recordAt b o).Relationship = RelationGroup
  · rcases (recordAt_group_iff b o).mpr h with ⟨mx, act, info, hd⟩
    rw [hd]; simp [Payload.isGroup, h]
  · have : (recordAt b o).data.isGroup ≠ true := by
      intro hg
      apply h
      apply (recordAt_group_iff b o).mp
      cases hd : (recordAt b o).data <;> rw [hd] at hg <;> simp [Payload.isGroup] at hg
      exact ⟨_, _, _, rfl⟩
    simp [h, this]

theorem filter_isGroup_records (b : Buffer) (fuel : Nat) (s : State) :
    ((records b fuel s).filter fun r => r.data.isGroup) =
      (records b fuel s).filter fun r => decide (r.Relationship = RelationGroup) := by
  apply List.filter_congr
  intro r hr
  unfold records at hr
  rcases List.mem_map.mp hr with ⟨o, _, rfl⟩
  exact records_isGroup b o

theorem Counters.eq_of_fields {a b : Counters} (hg : a.numOfGroups = b.numOfGroups)
    (hs : a.numofSockets = b.numofSockets) (hc : a.numOfcores = b.numOfcores)
    (hl : a.numOfLogicalProcessors = b.numOfLogicalProcessors) : a = b := by
  cases a; cases b; simp_all

theorem processorInfo_eq_some {b : Buffer} {fuel : Nat} {c : Counters}
    (h : processorInfo b fuel = some c) :
    ∃ s, walk b fuel State.init = some s ∧ s.counters = c := by
  unfold processorInfo at h
  exact Option.map_eq_some'.mp h

theorem processorInfo_eq_foldl {b : Buffer} {fuel : Nat} {c : Counters}
    (h : processorInfo b fuel = some c) :
    c = (records b fuel State.init).foldl aggregate zeroCounters := by
  obtain ⟨s, hw, rfl⟩ := processorInfo_eq_some h
  exact (walk_eq_foldl b fuel _ _ hw).1

/-! ## The claims -/

set_option maxRecDepth 8000

/-- C1, evaluated where the code departs from it.  The buffer `packageTwoGroups` holds one
ProcessorPackage record with two GroupAffinity entries, masks `0x0F` and `0xF0`, whose
population counts sum to 8.  The walk counts one socket but only 4 logical processors:
the set bits of the last mask.  Two package records with one of these masks each do give
2 sockets and 8 logical processors. -/
theorem package_two_groups_counts_last_mask_only :
    (recordAt packageTwoGroups 0).Relationship = RelationProcessorPackage ∧
      (recordAt packageTwoGroups 0).data.masks = [0x0F, 0xF0] ∧
      ((recordAt packageTwoGroups 0).data.masks.map popcount).sum = 8 ∧
      processorInfo packageTwoGroups 1 =
        some { numOfGroups := 0, numofSockets := 1, numOfcores := 0,
               numOfLogicalProcessors := 4 } ∧
      processorInfo twoPackages 2 =
        some { numOfGroups := 0, numofSockets := 2, numOfcores := 0,
               numOfLogicalProcessors := 8 } := by
  decide

/-- C2.  An iteration of the walk on a ProcessorCore record, whatever its affinities and
masks, adds exactly 1 to the core count and leaves the logical-processor count, the
socket count and the group count unchanged. -/
theorem core_record (b : Buffer) (s : State)
    (h : (recordAt b s.offset).Relationship = RelationProcessorCore) :
    (loopBody b s).counters.numOfcores = s.counters.numOfcores + 1 ∧
      (loopBody b s).counters.numOfLogicalProcessors = s.counters.numOfLogicalProcessors ∧
      (loopBody b s).counters.numofSockets = s.counters.numofSockets ∧
      (loopBody b s).counters.numOfGroups = s.counters.numOfGroups := by
  rw [loopBody_counters, aggregate, recordAt_processor (Or.inl h), h]
  simp [RelationProcessorCore, RelationProcessorPackage]

/-- Witness for C2: one core record with mask `0x03` gives cores = 1 and logical
processors = 0. -/
theorem core_record_witness :
    ((recordAt oneCore State.init.offset).Relationship = RelationProcessorCore ∧
      (recordAt oneCore State.init.offset).data.masks = [0x03]) ∧
      ((loopBody oneCore State.init).counters.numOfcores = State.init.counters.numOfcores + 1 ∧
        (loopBody oneCore State.init).counters.numOfLogicalProcessors =
          State.init.counters.numOfLogicalProcessors ∧
        (loopBody oneCore State.init).counters.numofSockets =
          State.init.counters.numofSockets ∧
        (loopBody oneCore State.init).counters.numOfGroups =
          State.init.counters.numOfGroups) ∧
      processorInfo oneCore 1 =
        some { numOfGroups := 0, numofSockets := 0, numOfcores := 1,
               numOfLogicalProcessors := 0 } :=
  ⟨by decide, core_record oneCore State.init (by decide), by decide⟩

/-- C3.  An iteration of the walk on a Group record sets the group count to the record's
`ActiveGroupCount` (whatever the count was before) and leaves the socket, core and
logical-processor counts unchanged.  When the walk of a buffer ends, the group count is
the `ActiveGroupCount` of the last Group record among the records walked, and 0 when
there is none. -/
theorem group_record (b : Buffer) (s : State)
    (h : (recordAt b s.offset).Relationship = RelationGroup)
    (b' : Buffer) (fuel : Nat) (c : Counters) (hw : processorInfo b' fuel = some c) :
    ((loopBody b s).counters.numOfGroups = (recordAt b s.offset).data.activeGroupCount ∧
      (recordAt b s.offset).data.activeGroupCount = readUint16 b (s.offset + 8 + 2) ∧
      (loopBody b s).counters.numofSockets = s.counters.numofSockets ∧
      (loopBody b s).counters.numOfcores = s.counters.numOfcores ∧
      (loopBody b s).counters.numOfLogicalProcessors = s.counters.numOfLogicalProcessors) ∧
      c.numOfGroups =
        ((((records b' fuel State.init).filter
          fun r => decide (r.Relationship = RelationGroup)).getLast?).map
            fun r => r.data.activeGroupCount).getD 0 := by
  refine ⟨?_, ?_⟩
  · rw [group_step b s h]
    refine ⟨rfl, ?_, rfl, rfl, rfl⟩
    rw [recordAt_Relationship] at h
    simp [recordAt, h, RelationProcessorCore, RelationProcessorPackage, RelationProcessorDie,
      RelationProcessorModule, RelationNumaNode, RelationNumaNodeEx, RelationCache,
      RelationGroup, Payload.activeGroupCount]
  · rw [processorInfo_eq_foldl hw, foldl_numOfGroups, filter_isGroup_records]
    rfl

/-- Witness for C3: one Group record with `ActiveGroupCount = 1` gives groups = 1; in
`coreThenTwoGroups` the Group records declare 2 and then 1, and the walk ends with 1. -/
theorem group_record_witness :
    ((recordAt oneGroup State.init.offset).Relationship = RelationGroup ∧
      processorInfo coreThenTwoGroups 3 =
        some { numOfGroups := 1, numofSockets := 0, numOfcores := 1,
               numOfLogicalProcessors := 0 }) ∧
      (((loopBody oneGroup State.init).counters.numOfGroups =
          (recordAt oneGroup State.init.offset).data.activeGroupCount ∧
        (recordAt oneGroup State.init.offset).data.activeGroupCount =
          readUint16 oneGroup (State.init.offset + 8 + 2) ∧
        (loopBody oneGroup State.init).counters.numofSockets =
          State.init.counters.numofSockets ∧
        (loopBody oneGroup State.init).counters.numOfcores = State.init.counters.numOfcores ∧
        (loopBody oneGroup State.init).counters.numOfLogicalProcessors =
          State.init.counters.numOfLogicalProcessors) ∧
        (Counters.mk 1 0 1 0).numOfGroups =
          ((((records coreThenTwoGroups 3 State.init).filter
            fun r => decide (r.Relationship = RelationGroup)).getLast?).map
              fun r => r.data.activeGroupCount).getD 0) ∧
      (recordAt oneGroup State.init.offset).data.activeGroupCount = 1 ∧
      processorInfo oneGroup 1 =
        some { numOfGroups := 1, numofSockets := 0, numOfcores := 0,
               numOfLogicalProcessors := 0 } :=
  ⟨by decide,
    group_record oneGroup State.init (by decide) coreThenTwoGroups 3
      { numOfGroups := 1, numofSockets := 0, numOfcores := 1, numOfLogicalProcessors := 0 }
      (by decide),
    by decide, by decide⟩

/-- C4.  An iteration of the walk on a record whose kind is NumaNode, NumaNodeEx or
Cache, or whose kind tag is none of the eight known relationship values, leaves all four
counters unchanged, whatever the payload. -/
theorem uncounted_record (b : Buffer) (s : State)
    (h : (recordAt b s.offset).Relationship = RelationNumaNode ∨
      (recordAt b s.offset).Relationship = RelationNumaNodeEx ∨
      (recordAt b s.offset).Relationship = RelationCache ∨
      ((recordAt b s.offset).Relationship ≠ RelationProcessorCore ∧
        (recordAt b s.offset).Relationship ≠ RelationNumaNode ∧
        (recordAt b s.offset).Relationship ≠ RelationCache ∧
        (recordAt b s.offset).Relationship ≠ RelationProcessorPackage ∧
        (recordAt b s.offset).Relationship ≠ RelationGroup ∧
        (recordAt b s.offset).Relationship ≠ RelationProcessorDie ∧
        (recordAt b s.offset).Relationship ≠ RelationNumaNodeEx ∧
        (recordAt b s.offset).Relationship ≠ RelationProcessorModule)) :
    (loopBody b s).counters = s.counters := by
  rw [loopBody_counters]
  apply aggregate_noCase
  simp only [RelationProcessorCore, RelationProcessorPackage, RelationProcessorDie,
    RelationProcessorModule, RelationNumaNode, RelationNumaNodeEx, RelationCache,
    RelationGroup] at h ⊢
  omega

/-- Witness for C4: a NUMA node record with mask `0xFF` leaves the counters as they
were. -/
theorem uncounted_record_witness :
    ((recordAt oneNumaNode State.init.offset).Relationship = RelationNumaNode ∧
      (recordAt oneNumaNode State.init.offset).data =
        Payload.numaNode 0 1 [{ Mask := 0xFF, Group := 0 }]) ∧
      (loopBody oneNumaNode State.init).counters = State.init.counters :=
  ⟨by decide, uncounted_record oneNumaNode State.init (Or.inl (by decide))⟩

/-- C5 fails on the code.  The 48-byte buffer `overshoot` holds one package record that
declares `Size = 49`, one byte past the end: the walk ends after that record and reports
its counters, although the declared sizes sum to 49 and not to `len(buffer) = 48`. -/
theorem overshoot_reports_counters :
    overshoot.len = 48 ∧
      ((records overshoot 1 State.init).map Record.Size).sum = 49 ∧
      processorInfo overshoot 1 =
        some { numOfGroups := 0, numofSockets := 1, numOfcores := 0,
               numOfLogicalProcessors := 4 } ∧
      ¬ (∀ (b : Buffer) (fuel : Nat) (c : Counters), processorInfo b fuel = some c →
          ((records b fuel State.init).map Record.Size).sum = b.len) := by
  refine ⟨by decide, by decide, by decide, ?_⟩
  intro hall
  have hc : processorInfo overshoot 1 = some (Counters.mk 0 1 0 4) := by decide
  have h := hall overshoot 1 _ hc
  revert h
  decide

/-- C5 as amended.  When the walk of a buffer ends, it reports its counters (there is no
error path), every record it walked starts before `len(buffer)`, the final offset is the
sum of the declared sizes of the records walked, and that sum is at least `len(buffer)`:
equal to it, or larger when the last record declares a size that reaches past the end. -/
theorem walk_ends_at_or_past_len (b : Buffer) (fuel : Nat) (s : State)
    (hw : walk b fuel State.init = some s) :
    processorInfo b fuel = some s.counters ∧
      (∀ o ∈ visited b fuel State.init, o < b.len) ∧
      s.offset = ((records b fuel State.init).map Record.Size).sum ∧
      b.len ≤ ((records b fuel State.init).map Record.Size).sum := by
  obtain ⟨_, h2, h3⟩ := walk_eq_foldl b fuel _ _ hw
  have h2' : s.offset = ((records b fuel State.init).map Record.Size).sum := by
    rw [h2]; exact Nat.zero_add _
  refine ⟨?_, visited_lt b fuel State.init, h2', ?_⟩
  · rw [processorInfo, hw]; rfl
  · rw [← h2']; exact h3

/-- Witness for the amended C5, on the buffer `overshoot`. -/
theorem walk_ends_at_or_past_len_witness :
    walk overshoot 1 State.init = some { offset := 49, counters := Counters.mk 0 1 0 4 } ∧
      (processorInfo overshoot 1 = some (Counters.mk 0 1 0 4) ∧
        (∀ o ∈ visited overshoot 1 State.init, o < overshoot.len) ∧
        49 = ((records overshoot 1 State.init).map Record.Size).sum ∧
        overshoot.len ≤ ((records overshoot 1 State.init).map Record.Size).sum) :=
  ⟨by decide,
    walk_ends_at_or_past_len overshoot 1 { offset := 49, counters := Counters.mk 0 1 0 4 }
      (by decide)⟩

/-- C6.  For every 64-bit mask, setting exactly the bits at the positions that `PrintMask`
prints (the OR of `1 << p` over the printed positions) gives back the mask, and a
position `p` is printed if and only if `p` is in 0..63 and bit `p` of the mask is set. -/
theorem PrintMask_roundtrip (mask : Nat) (h : mask < 2 ^ 64) :
    orBits (PrintMask mask).positions = mask ∧
      ∀ p, p ∈ (PrintMask mask).positions ↔ p < 64 ∧ mask.testBit p = true := by
  refine ⟨?_, mem_positions mask⟩
  apply Nat.eq_of_testBit_eq
  intro j
  rw [orBits, testBit_foldl_or, Nat.zero_testBit, Bool.false_or]
  by_cases hj : j < 64
  · by_cases hb : mask.testBit j = true
    · simp [mem_positions, hj, hb]
    · simp [mem_positions, hj, hb]
  · have hf := testBit_eq_false_of_lt h (Nat.le_of_not_lt hj)
    simp [mem_positions, hj, hf]

/-- Witness for C6: the all-ones mask; mask 0 prints nothing. -/
theorem PrintMask_roundtrip_witness :
    (18446744073709551615 < 2 ^ 64 ∧ (PrintMask 0).positions = [] ∧
      (PrintMask 18446744073709551615).positions = List.range 64) ∧
      (orBits (PrintMask 18446744073709551615).positions = 18446744073709551615 ∧
        ∀ p, p ∈ (PrintMask 18446744073709551615).positions ↔
          p < 64 ∧ Nat.testBit 18446744073709551615 p = true) :=
  ⟨by decide, PrintMask_roundtrip 18446744073709551615 (by decide)⟩

/-- C7.  For every 64-bit mask, `PrintMask` prints bit positions in strictly ascending
order and returns the number of positions it printed, which is the number of set bits of
the mask and at most 64. -/
theorem PrintMask_count (mask : Nat) (h : mask < 2 ^ 64) :
    List.Pairwise (· < ·) (PrintMask mask).positions ∧
      (PrintMask mask).count = (PrintMask mask).positions.length ∧
      (PrintMask mask).count = popcount mask ∧
      (PrintMask mask).count = Set.ncard {p | mask.testBit p = true} ∧
      (PrintMask mask).count ≤ 64 := by
  have hset : {p | mask.testBit p = true} =
      ((Finset.filter (fun p => mask.testBit p = true) (Finset.range 64) : Finset Nat) :
        Set Nat) := by
    ext p
    simp only [Set.mem_setOf_eq, Finset.coe_filter, Finset.mem_range]
    constructor
    · intro hp
      refine ⟨?_, hp⟩
      by_contra hge
      rw [testBit_eq_false_of_lt h (Nat.le_of_not_lt hge)] at hp
      exact Bool.noConfusion hp
    · exact fun hp => hp.2
  rw [hset, Set.ncard_coe_Finset, PrintMask_eq]
  refine ⟨?_, rfl, ?_, ?_, ?_⟩
  · exact List.Pairwise.sublist (List.filter_sublist _) (List.pairwise_lt_range 64)
  · exact filter_testBit_length 64 mask
  · simp [Finset.card, Finset.filter, Finset.range, Multiset.range]
  · calc ((List.range 64).filter (fun p => mask.testBit p)).length
        ≤ (List.range 64).length := List.length_filter_le _ _
      _ = 64 := List.length_range 64

/-- Witness for C7: mask `0xFF` prints `[0,1,2,3,4,5,6,7]` and returns 8; mask 0 prints
nothing and returns 0; the all-ones mask returns 64. -/
theorem PrintMask_count_witness :
    (0xFF < 2 ^ 64 ∧
      PrintMask 0xFF = { positions := [0, 1, 2, 3, 4, 5, 6, 7], count := 8 } ∧
      PrintMask 0 = { positions := [], count := 0 } ∧
      (PrintMask 18446744073709551615).count = 64) ∧
      (List.Pairwise (· < ·) (PrintMask 0xFF).positions ∧
        (PrintMask 0xFF).count = (PrintMask 0xFF).positions.length ∧
        (PrintMask 0xFF).count = popcount 0xFF ∧
        (PrintMask 0xFF).count = Set.ncard {p | Nat.testBit 0xFF p = true} ∧
        (PrintMask 0xFF).count ≤ 64) :=
  ⟨by decide, PrintMask_count 0xFF (by decide)⟩

/-- C8.  Let two buffers be walked to the end.  If the sequences of records walked are
permutations of one another and, for every kind, the records of that kind come in the
same order in both, then the two walks report the same four counters. -/
theorem order_independent (b1 b2 : Buffer) (fuel1 fuel2 : Nat) (c1 c2 : Counters)
    (h1 : processorInfo b1 fuel1 = some c1) (h2 : processorInfo b2 fuel2 = some c2)
    (hperm : (records b1 fuel1 State.init).Perm (records b2 fuel2 State.init))
    (hkind : ∀ k : Nat,
      ((records b1 fuel1 State.init).filter fun r => decide (r.Relationship = k)) =
        (records b2 fuel2 State.init).filter fun r => decide (r.Relationship = k)) :
    c1 = c2 := by
  rw [processorInfo_eq_foldl h1, processorInfo_eq_foldl h2]
  apply Counters.eq_of_fields
  · rw [foldl_numOfGroups, foldl_numOfGroups, filter_isGroup_records,
      filter_isGroup_records, hkind RelationGroup]
  · exact foldl_perm_additive Counters.numofSockets _ aggregate_numofSockets hperm _
  · exact foldl_perm_additive Counters.numOfcores _ aggregate_numOfcores hperm _
  · exact foldl_perm_additive Counters.numOfLogicalProcessors _
      aggregate_numOfLogicalProcessors hperm _

/-- The records of `orderA`: package `0x0F`, core `0x03`, package `0xF0`. -/
theorem records_orderA :
    records orderA 3 State.init =
      [{ Relationship := 3, Size := 48,
         data := Payload.processor 1 [{ Mask := 0x0F, Group := 0 }] },
       { Relationship := 0, Size := 48,
         data := Payload.processor 1 [{ Mask := 0x03, Group := 0 }] },
       { Relationship := 3, Size := 48,
         data := Payload.processor 1 [{ Mask := 0xF0, Group := 1 }] }] := by
  decide

/-- The records of `orderB`: core `0x03`, package `0x0F`, package `0xF0`. -/
theorem records_orderB :
    records orderB 3 State.init =
      [{ Relationship := 0, Size := 48,
         data := Payload.processor 1 [{ Mask := 0x03, Group := 0 }] },
       { Relationship := 3, Size := 48,
         data := Payload.processor 1 [{ Mask := 0x0F, Group := 0 }] },
       { Relationship := 3, Size := 48,
         data := Payload.processor 1 [{ Mask := 0xF0, Group := 1 }] }] := by
  decide

/-- In `orderA` and `orderB` the records of each kind come in the same order. -/
theorem sameKindOrder_orderA_orderB (k : Nat) :
    ((records orderA 3 State.init).filter fun r => decide (r.Relationship = k)) =
      (records orderB 3 State.init).filter fun r => decide (r.Relationship = k) := by
  rw [records_orderA, records_orderB]
  by_cases h3 : k = 3
  · subst h3; decide
  · by_cases h0 : k = 0
    · subst h0; decide
    · have e3 : ¬ 3 = k := fun h => h3 h.symm
      have e0 : ¬ 0 = k := fun h => h0 h.symm
      simp [List.filter, e3, e0]

/-- The records of `orderA` are a permutation of those of `orderB`, and not the same
sequence. -/
theorem perm_orderA_orderB :
    (records orderA 3 State.init).Perm (records orderB 3 State.init) ∧
      records orderA 3 State.init ≠ records orderB 3 State.init := by
  rw [records_orderA, records_orderB]
  exact ⟨List.Perm.swap _ _ _, by decide⟩

/-- Witness for C8: `orderA` and `orderB` hold the same three records, the core record
moved across a package record; both walks report 2 sockets, 1 core and 8 logical
processors. -/
theorem order_independent_witness :
    (processorInfo orderA 3 = some (Counters.mk 0 2 1 8) ∧
      processorInfo orderB 3 = some (Counters.mk 0 2 1 8) ∧
      (records orderA 3 State.init).Perm (records orderB 3 State.init) ∧
      records orderA 3 State.init ≠ records orderB 3 State.init) ∧
      Counters.mk 0 2 1 8 = Counters.mk 0 2 1 8 :=
  ⟨⟨by decide, by decide, perm_orderA_orderB⟩,
    order_independent orderA orderB 3 3 (Counters.mk 0 2 1 8) (Counters.mk 0 2 1 8)
      (by decide) (by decide) perm_orderA_orderB.1 sameKindOrder_orderA_orderB⟩

/-- C9.  An iteration of the walk on a ProcessorPackage record adds to the
logical-processor count the number of set bits of the mask of the record's last
GroupAffinity entry, and nothing when the record's `GroupCount` is 0.  The record has
`GroupCount` masks, each a 64-bit value; the amount is a function of the record at the
current offset alone, whatever the counters were before. -/
theorem package_record_last_affinity (b : Buffer) (s : State)
    (h : (recordAt b s.offset).Relationship = RelationProcessorPackage) :
    (loopBody b s).counters.numOfLogicalProcessors =
        s.counters.numOfLogicalProcessors +
          (((recordAt b s.offset).data.masks.getLast?).map popcount).getD 0 ∧
      (recordAt b s.offset).data.masks.length = (recordAt b s.offset).data.groupCount ∧
      (∀ m ∈ (recordAt b s.offset).data.masks, m < 2 ^ 64) ∧
      ((recordAt b s.offset).data.groupCount = 0 →
        (loopBody b s).counters.numOfLogicalProcessors =
          s.counters.numOfLogicalProcessors) := by
  have hd := recordAt_processor (Or.inr (Or.inl h))
  have key : (loopBody b s).counters.numOfLogicalProcessors =
        s.counters.numOfLogicalProcessors +
          (((recordAt b s.offset).data.masks.getLast?).map popcount).getD 0 := by
    rw [loopBody_counters, aggregate, hd, h]
    simp only [RelationProcessorCore, RelationProcessorPackage, Payload.masks]
    simp only [processorCount_eq, List.getLast?_map, Option.map_map]
    simp [Function.comp_def, PrintMask_count_eq_popcount]
  have hlen : (recordAt b s.offset).data.masks.length =
      (recordAt b s.offset).data.groupCount := by
    rw [hd]; simp [Payload.masks, Payload.groupCount, copyGroupMasks]
  have hlt : ∀ m ∈ (recordAt b s.offset).data.masks, m < 2 ^ 64 := by
    intro m hm
    rw [hd] at hm
    obtain ⟨g, hg, rfl⟩ := List.mem_map.mp hm
    exact mask_lt_of_mem_copyGroupMasks hg
  refine ⟨key, hlen, hlt, ?_⟩
  intro h0
  rw [h0] at hlen
  rw [key, List.length_eq_zero.mp hlen]
  rfl

/-- Witness for C9: on the package record of `packageTwoGroups`, with masks `0x0F` and
`0xF0`, the walk adds the 4 set bits of `0xF0`. -/
theorem package_record_last_affinity_witness :
    ((recordAt packageTwoGroups State.init.offset).Relationship = RelationProcessorPackage ∧
      (recordAt packageTwoGroups State.init.offset).data.masks = [0x0F, 0xF0] ∧
      (loopBody packageTwoGroups State.init).counters.numOfLogicalProcessors = 4) ∧
      ((loopBody packageTwoGroups State.init).counters.numOfLogicalProcessors =
          State.init.counters.numOfLogicalProcessors +
            (((recordAt packageTwoGroups State.init.offset).data.masks.getLast?).map
              popcount).getD 0 ∧
        (recordAt packageTwoGroups State.init.offset).data.masks.length =
          (recordAt packageTwoGroups State.init.offset).data.groupCount ∧
        (∀ m ∈ (recordAt packageTwoGroups State.init.offset).data.masks, m < 2 ^ 64) ∧
        ((recordAt packageTwoGroups State.init.offset).data.groupCount = 0 →
          (loopBody packageTwoGroups State.init).counters.numOfLogicalProcessors =
            State.init.counters.numOfLogicalProcessors)) :=
  ⟨by decide, package_record_last_affinity packageTwoGroups State.init (by decide)⟩

/-- C10.  If every record that the walk of a buffer reaches declares `Size ≥ 1`, the
walk ends within `len(buffer)` iterations (more iterations give the same result and visit
no further record), the offsets of the records visited are strictly increasing, and at most
`len(buffer)` records are visited.  The buffer `zeroSize` holds a record with `Size = 0`:
an iteration leaves the offset at 0 and the walk never ends. -/
theorem walk_terminates_of_positive_sizes (b : Buffer)
    (h : ∀ o ∈ visited b b.len State.init, 1 ≤ (recordAt b o).Size) :
    (∃ s, ∀ k, walk b (b.len + k) State.init = some s ∧
        visited b (b.len + k) State.init = visited b b.len State.init) ∧
      List.Pairwise (· < ·) (visited b b.len State.init) ∧
      (visited b b.len State.init).length ≤ b.len ∧
      (0 < zeroSize.len ∧ (recordAt zeroSize 0).Size = 0 ∧
        (∀ c, (loopBody zeroSize { offset := 0, counters := c }).offset = 0) ∧
        ∀ fuel, walk zeroSize fuel State.init = none) := by
  obtain ⟨⟨s, hs⟩, hpw⟩ := walk_terminates b b.len State.init (Nat.le_add_left _ _) h
  refine ⟨⟨s, fun k => ⟨walk_mono b b.len k _ _ hs, visited_mono b b.len k _ _ hs⟩⟩, hpw,
    visited_length_le b b.len _,
    by decide, by decide, ?_, ?_⟩
  · intro c
    have h0 : (recordAt zeroSize 0).Size = 0 := by decide
    rw [loopBody_offset]
    exact h0
  · intro fuel
    exact walk_stuck zeroSize State.init (by decide) (by decide) fuel _

/-- Witness for C10: the two records of `twoPackages` declare `Size = 48`; the walk ends
after 2 iterations. -/
theorem walk_terminates_of_positive_sizes_witness :
    ((∀ o ∈ visited twoPackages twoPackages.len State.init,
        1 ≤ (recordAt twoPackages o).Size) ∧
      visited twoPackages twoPackages.len State.init = [0, 48]) ∧
      ((∃ s, ∀ k, walk twoPackages (twoPackages.len + k) State.init = some s ∧
          visited twoPackages (twoPackages.len + k) State.init =
            visited twoPackages twoPackages.len State.init) ∧
        List.Pairwise (· < ·) (visited twoPackages twoPackages.len State.init) ∧
        (visited twoPackages twoPackages.len State.init).length ≤ twoPackages.len ∧
        (0 < zeroSize.len ∧ (recordAt zeroSize 0).Size = 0 ∧
          (∀ c, (loopBody zeroSize { offset := 0, counters := c }).offset = 0) ∧
          ∀ fuel, walk zeroSize fuel State.init = none)) :=
  ⟨by decide, walk_terminates_of_positive_sizes twoPackages (by decide)⟩
end Gocore
